import Mathlib

/-!
Verification development for the webagents.md manifest toolkit
(parser / serializer / declaration generator / validation / client).

The Python sources are embedded shallowly: text is modelled as `List Char`
(`String` at structure boundaries), Python's `re`-based scanning is modelled
by explicit character-level scanners that reproduce the deterministic
behaviour of the concrete patterns used by the code, and the one fallible
code path (`_parse_compact_tool` raising `ValueError`) is modelled with
`Except`.  Scanners that consume a variable number of characters per step
use an explicit fuel argument (`length + 1`) so that every definition is
structurally recursive and kernel-reducible.

Modelling notes (documented divergences, none of which is exercised by any
theorem below):
* Python's `\s`, `\w`, `str.strip`, `str.lower`, `str.splitlines` also
  accept some exotic Unicode characters; the embedding uses the ASCII sets,
  which agree with Python on all ASCII input.
* `str.splitlines` is modelled on the terminators `\r\n`, `\r`, `\n`,
  `\x0b`, `\x0c`.
-/

namespace Webagent

/-- The backtick character (0x60), kept as a named constant. -/
def btick : Char := Char.ofNat 96

/-- The single-quote character (0x27), kept as a named constant. -/
def squote : Char := Char.ofNat 39

/-- ASCII part of Python's regex `\s` / `str.strip` whitespace set. -/
def pyIsSpace (c : Char) : Bool :=
  c = ' ' || c = '\t' || c = '\n' || c = '\r' || c = '\x0b' || c = '\x0c'

/-- ASCII part of Python's regex `\w` word-character set. -/
def isWordChar (c : Char) : Bool :=
  c.isAlpha || c.isDigit || c = '_'

/-- Characters treated as line terminators by `str.splitlines` (ASCII part). -/
def isLineBreak (c : Char) : Bool :=
  c = '\n' || c = '\r' || c = '\x0b' || c = '\x0c'

/-- Boolean prefix test on character lists. -/
def isPrefixL : List Char → List Char → Bool
  | [], _ => true
  | _ :: _, [] => false
  | a :: as, b :: bs => a = b && isPrefixL as bs

/-- `str.strip()` on the left: drop leading whitespace. -/
def pyLstripL (cs : List Char) : List Char := cs.dropWhile pyIsSpace

/-- `str.rstrip()`: drop trailing whitespace. -/
def pyRstripL (cs : List Char) : List Char :=
  (cs.reverse.dropWhile pyIsSpace).reverse

/-- `str.strip()`: drop whitespace from both ends. -/
def pyStripL (cs : List Char) : List Char := pyRstripL (pyLstripL cs)

/-- `str.strip(chars)`: drop the given characters from both ends. -/
def pyStripCharsL (set : List Char) (cs : List Char) : List Char :=
  (((cs.dropWhile (set.contains ·)).reverse.dropWhile (set.contains ·)).reverse)

/-- `str.lower()` (ASCII). -/
def pyLowerL (cs : List Char) : List Char := cs.map Char.toLower

/-- `str.splitlines()`: split at line terminators, no trailing empty part. -/
def pySplitlinesGo : List Char → List Char → List (List Char)
  | acc, [] => if acc.isEmpty then [] else [acc.reverse]
  | acc, '\r' :: '\n' :: rest => acc.reverse :: pySplitlinesGo [] rest
  | acc, c :: rest =>
    if isLineBreak c then acc.reverse :: pySplitlinesGo [] rest
    else pySplitlinesGo (c :: acc) rest

/-- `str.splitlines()` entry point. -/
def pySplitlinesL (cs : List Char) : List (List Char) := pySplitlinesGo [] cs

/-- `str.split(sep)` for a one-character separator. -/
def splitCharGo (sep : Char) : List Char → List Char → List (List Char)
  | acc, [] => [acc.reverse]
  | acc, c :: rest =>
    if c = sep then acc.reverse :: splitCharGo sep [] rest
    else splitCharGo sep (c :: acc) rest

/-- `str.split(sep)` entry point (one-character separator). -/
def splitCharL (sep : Char) (cs : List Char) : List (List Char) :=
  splitCharGo sep [] cs

/-- `str.split(sep, 1)` for a one-character separator:
the part before the first occurrence, and optionally the part after it. -/
def splitOnceCharGo (sep : Char) : List Char → List Char → List Char × Option (List Char)
  | acc, [] => (acc.reverse, none)
  | acc, c :: rest =>
    if c = sep then (acc.reverse, some rest)
    else splitOnceCharGo sep (c :: acc) rest

/-- `str.split(sep, 1)` entry point. -/
def splitOnceCharL (sep : Char) (cs : List Char) : List Char × Option (List Char) :=
  splitOnceCharGo sep [] cs

/-- `sep.join(xs)`. -/
def joinWith (sep : List Char) : List (List Char) → List Char
  | [] => []
  | [x] => x
  | x :: y :: rest => x ++ sep ++ joinWith sep (y :: rest)

/-- Substring test (`pat in s` for a nonempty literal pattern). -/
def hasSubL (pat : List Char) : List Char → Bool
  | [] => isPrefixL pat []
  | c :: rest => isPrefixL pat (c :: rest) || hasSubL pat rest

/-- The characters of the first occurrence of `pat` onwards removed:
`upToSub pat cs` is the prefix of `cs` before the first occurrence of
`pat`, or `none` when `pat` does not occur. -/
def upToSub (pat : List Char) : List Char → Option (List Char)
  | [] => if isPrefixL pat [] then some [] else none
  | c :: rest =>
    if isPrefixL pat (c :: rest) then some []
    else (upToSub pat rest).map (c :: ·)

/-! ## Data model (`webagent/types.py`) -/

/-- A single parameter for a tool (`types.Param`, a pydantic model). -/
structure Param where
  name : String
  type : String := "string"
  description : String := ""
  required : Bool := true
  default : Option String := none
deriving Repr, DecidableEq

/-- A single tool declared in a webagents.md manifest (`types.Tool`). -/
structure Tool where
  name : String
  description : String := ""
  params : List Param := []
  returns : String := ""
  sample_code : String := ""
deriving Repr, DecidableEq

/-- A parsed webagents.md manifest (`types.Manifest`). -/
structure Manifest where
  name : String := ""
  description : String := ""
  version : String := "0.1"
  tools : List Tool := []
  content : String := ""
deriving Repr, DecidableEq

/-- `Manifest.get_tool`: look up a tool by name, first match wins. -/
def Manifest.get_tool (m : Manifest) (name : String) : Option Tool :=
  m.tools.find? (fun t => t.name = name)

/-- `Manifest.tool_names`. -/
def Manifest.tool_names (m : Manifest) : List String :=
  m.tools.map Tool.name

/-! ## Pattern scanners (`webagent/parser.py` regexes)

Each scanner reproduces the concrete regular expression's behaviour on the
strings the program feeds it; the patterns involved are deterministic (their
only backtracking points cannot change the accepted decomposition, as noted
inline). -/

/-- One position of `re.search(r"^tool:\s+", ..., re.MULTILINE)`: the text
starts with `tool:` followed by at least one whitespace character (which may
be the newline itself). -/
def toolColonWs : List Char → Bool
  | 't' :: 'o' :: 'o' :: 'l' :: ':' :: w :: _ => pyIsSpace w
  | _ => false

/-- `re.search(r"^tool:\s+", markdown, re.MULTILINE)` as a Boolean scan;
the flag records whether the current position is at a line start. -/
def detectCompactGo : Bool → List Char → Bool
  | _, [] => false
  | atStart, c :: rest =>
    if atStart && toolColonWs (c :: rest) then true
    else detectCompactGo (c = '\n') rest

/-- Document-global compact-dialect detection used by `parse`. -/
def detectCompactL (cs : List Char) : Bool := detectCompactGo true cs

/-- `_TOOL_HEADER_RE.match(s)`: `^tool:\s+(\w+)\(([^)]*)\)\s*$`; returns
the `(name, raw arg string)` groups.  The pattern is deterministic: each
greedy run (`\s+`, `\w+`, `[^)]*`) is followed by a literal that cannot
occur inside the run, so no backtracking can alter the match. -/
def matchToolHeader (cs : List Char) : Option (List Char × List Char) :=
  match cs with
  | 't' :: 'o' :: 'o' :: 'l' :: ':' :: rest =>
    if (rest.takeWhile pyIsSpace).isEmpty then none
    else
      let r1 := rest.dropWhile pyIsSpace
      let nm := r1.takeWhile isWordChar
      if nm.isEmpty then none
      else
        match r1.dropWhile isWordChar with
        | '(' :: r2 =>
          let args := r2.takeWhile (· ≠ ')')
          match r2.dropWhile (· ≠ ')') with
          | ')' :: r3 => if r3.all pyIsSpace then some (nm, args) else none
          | _ => none
        | _ => none
  | _ => none

/-- `_PARAM_RE.match(line)` where the pattern is
`^-\s+` + backtick + `(\w+)` + backtick + `\s*\(([^)]+)\)\s*:\s*(.+)$`;
returns the `(name, modifiers, description)` groups.  For the only
non-deterministic point (`\s*` before `(.+)$` when everything after the
colon is whitespace) the regex backtracks to capture the final character;
this is reproduced below (the program only feeds stripped lines, for which
that branch is unreachable). -/
def matchParam (cs : List Char) : Option (List Char × List Char × List Char) :=
  match cs with
  | '-' :: rest =>
    if (rest.takeWhile pyIsSpace).isEmpty then none
    else
      match rest.dropWhile pyIsSpace with
      | b1 :: r1 =>
        if b1 ≠ btick then none
        else
          let nm := r1.takeWhile isWordChar
          if nm.isEmpty then none
          else
            match r1.dropWhile isWordChar with
            | b2 :: r2 =>
              if b2 = btick then
                (match r2.dropWhile pyIsSpace with
                 | '(' :: r3 =>
                   let mods := r3.takeWhile (· ≠ ')')
                   if mods.isEmpty then none
                   else
                     match r3.dropWhile (· ≠ ')') with
                     | ')' :: r4 =>
                       (match r4.dropWhile pyIsSpace with
                        | ':' :: r5 =>
                          if r5.isEmpty then none
                          else
                            let g := r5.dropWhile pyIsSpace
                            if g.isEmpty then
                              (match r5.reverse with
                               | last :: _ => some (nm, mods, [last])
                               | [] => none)
                            else some (nm, mods, g)
                        | _ => none)
                     | _ => none
                 | _ => none)
              else none
            | _ => none
      | [] => none
  | _ => none

/-- `_CODE_BLOCK_RE` (three backticks, `\w*`, a newline, then a lazily
matched body up to the next three backticks) attempted at one position. -/
def attemptFence (cs : List Char) : Option (List Char) :=
  match cs with
  | b1 :: b2 :: b3 :: rest =>
    if b1 = btick && b2 = btick && b3 = btick then
      match rest.dropWhile isWordChar with
      | '\n' :: body => upToSub [btick, btick, btick] body
      | _ => none
    else none
  | _ => none

/-- `re.search` with `_CODE_BLOCK_RE`: try every position left to right. -/
def findFenceGo : List Char → Option (List Char)
  | [] => none
  | c :: rest =>
    match attemptFence (c :: rest) with
    | some content => some content
    | none => findFenceGo rest

/-- `_extract_code_block`: content of the first fenced block, stripped;
the stripped raw text when no fenced block exists. -/
def extractCodeBlockL (text : List Char) : List Char :=
  match findFenceGo text with
  | some content => pyStripL content
  | none => pyStripL text

/-- `re.match(r"^\s{2}\w+:", line) and not line.startswith("    ")`:
the compact dialect's section-key test. -/
def isSectionKeyLine (cs : List Char) : Bool :=
  (match cs with
   | c1 :: c2 :: rest =>
     pyIsSpace c1 && pyIsSpace c2 &&
       !(rest.takeWhile isWordChar).isEmpty &&
       (match rest.dropWhile isWordChar with
        | ':' :: _ => true
        | _ => false)
   | _ => false)
  && !isPrefixL [' ', ' ', ' ', ' '] cs

/-! ## Line-start splitters (`re.split` with `(?m)` patterns)

`re.split(r"(?m)^## ", text)` and relatives cut the text at every line-start
occurrence of the marker, dropping the marker; scanning resumes after each
match.  The splitters below use a fuel argument (`length + 1` at the entry
point) purely to make the recursion structural; every step consumes at
least one character, so the fuel never runs out on the entry-point calls. -/

/-- Fueled worker for `re.split((?m)^<marker>, ·)` with a literal marker
that contains no newline. -/
def splitMarkerGo (marker : List Char) : Nat → Bool → List Char → List Char → List (List Char)
  | 0, _, acc, rest => [acc.reverse ++ rest]
  | _ + 1, _, acc, [] => [acc.reverse]
  | f + 1, atStart, acc, c :: rest =>
    if atStart && isPrefixL marker (c :: rest) then
      acc.reverse :: splitMarkerGo marker f false [] (List.drop (marker.length - 1) rest)
    else splitMarkerGo marker f (c = '\n') (c :: acc) rest

/-- `re.split((?m)^<marker>, cs)` for a literal newline-free marker. -/
def splitMarkerL (marker cs : List Char) : List (List Char) :=
  splitMarkerGo marker (cs.length + 1) true [] cs

/-- `re.split(r"(?m)^## ", ·)`. -/
def splitH2 (cs : List Char) : List (List Char) :=
  splitMarkerL ['#', '#', ' '] cs

/-- `re.split(r"(?m)^### ", ·)`. -/
def splitH3 (cs : List Char) : List (List Char) :=
  splitMarkerL ['#', '#', '#', ' '] cs

/-- Fueled worker for `re.split(r"(?m)^tool:\s+", ·)`.  The first flag is
true while the greedy `\s+` of the current match is still being consumed;
the second records whether the previous character was a newline (so that
`^` can match).  A new match can begin exactly where a whitespace run ends
at a line start. -/
def splitToolGo : Nat → Bool → Bool → List Char → List Char → List (List Char)
  | 0, _, _, acc, rest => [acc.reverse ++ rest]
  | _ + 1, _, _, acc, [] => [acc.reverse]
  | f + 1, true, atStart, acc, c :: rest =>
    if pyIsSpace c then splitToolGo f true (c = '\n') acc rest
    else if atStart && toolColonWs (c :: rest) then
      acc.reverse :: splitToolGo f true false [] (List.drop 4 rest)
    else splitToolGo f false (c = '\n') (c :: acc) rest
  | f + 1, false, atStart, acc, c :: rest =>
    if atStart && toolColonWs (c :: rest) then
      acc.reverse :: splitToolGo f true false [] (List.drop 4 rest)
    else splitToolGo f false (c = '\n') (c :: acc) rest

/-- `re.split(r"(?m)^tool:\s+", cs)`. -/
def splitToolL (cs : List Char) : List (List Char) :=
  splitToolGo (cs.length + 1) false true [] cs

/-! ## Heading dialect (`_parse_heading` and helpers) -/

/-- Last-binding association lookup: Python's dict comprehension lets a
later duplicate key overwrite an earlier one. -/
def lookupLastKV (kvs : List (List Char × List Char)) (k : List Char) : Option (List Char) :=
  match kvs with
  | [] => none
  | (k0, v0) :: rest =>
    match lookupLastKV rest k with
    | some v => some v
    | none => if k0 = k then some v0 else none

/-- The loop of `_parse_manifest_header`: a `# ` line (re)sets the name;
other lines are collected as description only while the name is nonempty. -/
def headerGo : List (List Char) → List Char → List (List Char) → List Char × List (List Char)
  | [], name, descRev => (name, descRev.reverse)
  | l :: rest, name, descRev =>
    if isPrefixL ['#', ' '] l then headerGo rest (pyStripL (l.drop 2)) descRev
    else if !name.isEmpty then headerGo rest name (l :: descRev)
    else headerGo rest name descRev

/-- `_parse_manifest_header`. -/
def parseManifestHeaderL (header : List Char) : List Char × List Char :=
  let st := headerGo (pySplitlinesL (pyStripL header)) [] []
  (st.1, pyStripL (joinWith ['\n'] st.2))

/-- One modifier step of `_parse_params_block` (the recognized-type branch
and the free-form type-hint branch both store the token as the type). -/
def applyModifier (st : String × Bool × Option String) (modRaw : List Char) :
    String × Bool × Option String :=
  let m := pyStripL modRaw
  if m = "optional".data then (st.1, false, st.2.2)
  else if m = "required".data then (st.1, true, st.2.2)
  else if isPrefixL "default=".data m then
    (st.1, false, some (String.mk (pyStripL (m.drop 8))))
  else (String.mk m, st.2.1, st.2.2)

/-- `_parse_params_block`: heading-format params subsection. -/
def parseParamsBlockL (text : List Char) : List Param :=
  (pySplitlinesL (pyStripL text)).filterMap (fun line0 =>
    match matchParam (pyStripL line0) with
    | none => none
    | some (nm, mods, g3) =>
      some { name := String.mk nm,
             type := ((splitCharL ',' mods).foldl applyModifier ("string", true, none)).1,
             description := String.mk (pyStripL g3),
             required := ((splitCharL ',' mods).foldl applyModifier ("string", true, none)).2.1,
             default := ((splitCharL ',' mods).foldl applyModifier ("string", true, none)).2.2 })

/-- The lowercase-keyed subsection association list built by
`_parse_heading_tool` from the `### ` splits. -/
def headingSubsections (sectionCs : List Char) : List (List Char × List Char) :=
  (splitH3 sectionCs).tail.map (fun s =>
    let kb := splitOnceCharL '\n' s
    (pyLowerL (pyStripL kb.1), kb.2.getD []))

/-- The body of the (last) `params` subsection of a heading tool section. -/
def headingParamsBody (sectionCs : List Char) : Option (List Char) :=
  lookupLastKV (headingSubsections sectionCs) "params".data

/-- `_parse_heading_tool`. -/
def parseHeadingToolL (sectionCs : List Char) : Tool :=
  let header := (splitH3 sectionCs).headD []
  let subs := headingSubsections sectionCs
  let lines := pySplitlinesL (pyStripL header)
  let toolName := pyStripL (lines.headD [])
  let toolDesc := pyStripL (joinWith ['\n'] lines.tail)
  let params :=
    match headingParamsBody sectionCs with
    | some b => parseParamsBlockL b
    | none => []
  let sample :=
    match lookupLastKV subs "sample code".data with
    | some b => extractCodeBlockL b
    | none => []
  let rets :=
    match lookupLastKV subs "output".data with
    | some b => extractCodeBlockL b
    | none =>
      match lookupLastKV subs "returns".data with
      | some b => extractCodeBlockL b
      | none => []
  { name := String.mk toolName, description := String.mk toolDesc,
    params := params, returns := String.mk rets, sample_code := String.mk sample }

/-- The per-tool sections of a heading document (everything after the
first `^## ` split). -/
def headingToolSections (mdCs : List Char) : List (List Char) :=
  (splitH2 mdCs).tail

/-- `_parse_heading`. -/
def parseHeadingL (mdCs : List Char) : Manifest :=
  let header := (splitH2 mdCs).headD []
  let nd := parseManifestHeaderL header
  { name := String.mk nd.1, description := String.mk nd.2,
    tools := (headingToolSections mdCs).map parseHeadingToolL }

/-! ## Compact dialect (`_parse_compact` and helpers) -/

/-- The preamble loop of `_parse_compact`: a `# ` line sets the name, a
line matching `_TOOL_HEADER_RE` stops the loop, anything else accumulates. -/
def compactPreambleGo : List (List Char) → List Char → List (List Char) → List Char × List (List Char)
  | [], name, acc => (name, acc.reverse)
  | l :: rest, name, acc =>
    if isPrefixL ['#', ' '] l then compactPreambleGo rest (pyStripL (l.drop 2)) acc
    else if (matchToolHeader l).isSome then (name, acc.reverse)
    else compactPreambleGo rest name (l :: acc)

/-- One header-argument entry of `_parse_compact_params`' default lookup:
a `name=literal` entry whose name matches sets the default (whitespace then
quote characters stripped) and clears the required flag; later matches win. -/
def compactDefaultFold (pname : List Char) (st : Option (List Char) × Bool) (part0 : List Char) :
    Option (List Char) × Bool :=
  match splitOnceCharL '=' (pyStripL part0) with
  | (before, some after) =>
    if pyStripL before = pname then
      (some (pyStripCharsL [squote, '"'] (pyStripL after)), false)
    else st
  | (_, none) => st

/-- `_parse_compact_params`: indented `name: type` lines, with defaults
looked up in the header argument string. -/
def parseCompactParamsL (lines : List (List Char)) (rawParams : List Char) : List Param :=
  lines.filterMap (fun line =>
    if (pyStripL line).isEmpty then none
    else if (pyStripL line).contains ':' then
      some { name := String.mk (pyStripL (splitOnceCharL ':' (pyStripL line)).1),
             type := String.mk (pyStripL ((splitOnceCharL ':' (pyStripL line)).2.getD [])),
             description := "",
             required := ((splitCharL ',' rawParams).foldl
               (compactDefaultFold (pyStripL (splitOnceCharL ':' (pyStripL line)).1)) (none, true)).2,
             default := ((splitCharL ',' rawParams).foldl
               (compactDefaultFold (pyStripL (splitOnceCharL ':' (pyStripL line)).1)) (none, true)).1.map String.mk }
    else none)

/-- `_params_from_signature`: Params synthesized from a header argument
string such as `query, limit = 10`. -/
def paramsFromSignatureL (sig : List Char) : List Param :=
  (splitCharL ',' sig).filterMap (fun part0 =>
    if (pyStripL part0).isEmpty then none
    else
      match splitOnceCharL '=' (pyStripL part0) with
      | (nm, some dflt) =>
        some { name := String.mk (pyStripL nm), description := "", required := false,
               default := some (String.mk (pyStripCharsL [squote, '"'] (pyStripL dflt))) }
      | (_, none) => some { name := String.mk (pyStripL part0), description := "" })

/-- The running tool state of `_parse_compact_tool`'s section loop. -/
structure CompactAcc where
  description : List Char := []
  params : List Param := []
  returns : List Char := []
  sample : List Char := []
deriving Repr, DecidableEq

/-- `_apply_section`. -/
def applySectionL (key : List Char) (lines : List (List Char)) (rawParams : List Char)
    (st : CompactAcc) : CompactAcc :=
  if key = "description".data then
    { st with description := pyStripL (joinWith ['\n'] (lines.map pyStripL)) }
  else if key = "params".data then
    { st with params := parseCompactParamsL lines rawParams }
  else if key = "output".data || key = "returns".data then
    let codeText := joinWith ['\n'] lines
    { st with returns :=
        if hasSubL [btick, btick, btick] codeText then extractCodeBlockL codeText
        else pyStripL codeText }
  else if key = "sample_code".data then
    let codeText := joinWith ['\n'] lines
    { st with sample :=
        if hasSubL [btick, btick, btick] codeText then extractCodeBlockL codeText
        else pyStripL codeText }
  else st

/-- The section loop of `_parse_compact_tool`, including the final flush
after the loop ends. -/
def compactSectionsGo (rawParams : List Char) :
    List (List Char) → List Char → List (List Char) → CompactAcc → CompactAcc
  | [], curKey, curLines, st =>
    if curKey.isEmpty then st else applySectionL curKey curLines.reverse rawParams st
  | line :: rest, curKey, curLines, st =>
    if isSectionKeyLine line then
      let st' := if curKey.isEmpty then st
        else applySectionL curKey curLines.reverse rawParams st
      let stripped := pyStripL line
      let curKey' := pyStripL ((splitCharL ':' stripped).headD [])
      let r := pyStripL (stripped.drop (curKey'.length + 1))
      let curLines' := if !r.isEmpty && r ≠ ['|'] then [r] else []
      compactSectionsGo rawParams rest curKey' curLines' st'
    else compactSectionsGo rawParams rest curKey (line :: curLines) st

/-- The header-line analysis of `_parse_compact_tool`: the tool name and
raw argument string, with the fallback for lines `_TOOL_HEADER_RE` rejects. -/
def compactHeaderOf (first : List Char) : List Char × List Char :=
  match matchToolHeader ("tool: ".data ++ first) with
  | some na => na
  | none => (pyStripL ((splitCharL '(' first).headD first), [])

/-- `_parse_compact_tool`; the `raise ValueError("Empty tool block")` is
modelled as `Except.error`. -/
def parseCompactToolL (block : List Char) : Except String Tool :=
  match pySplitlinesL (pyStripL block) with
  | [] => Except.error "Empty tool block"
  | first :: rest =>
    let na := compactHeaderOf first
    let acc := compactSectionsGo na.2 rest [] [] {}
    let params :=
      if acc.params.isEmpty && !na.2.isEmpty then paramsFromSignatureL na.2
      else acc.params
    Except.ok { name := String.mk na.1, description := String.mk acc.description,
                params := params, returns := String.mk acc.returns,
                sample_code := String.mk acc.sample }

/-- The tool-block loop of `_parse_compact`: each block is parsed in
order and the first raised error propagates (as the Python `for` loop
would let the exception escape). -/
def mapExcept {α β : Type} (f : α → Except String β) : List α → Except String (List β)
  | [] => Except.ok []
  | x :: xs =>
    match f x with
    | Except.error e => Except.error e
    | Except.ok y =>
      match mapExcept f xs with
      | Except.error e => Except.error e
      | Except.ok ys => Except.ok (y :: ys)

/-- `_parse_compact`. -/
def parseCompactL (mdCs : List Char) : Except String Manifest :=
  let pre := compactPreambleGo (pySplitlinesL mdCs) [] []
  let description := pyStripL (joinWith ['\n'] pre.2)
  match mapExcept parseCompactToolL (splitToolL mdCs).tail with
  | Except.ok tools =>
    Except.ok { name := String.mk pre.1, description := String.mk description, tools := tools }
  | Except.error e => Except.error e

/-- `parse`: strip, dispatch on the document-global dialect detection, and
preserve the stripped raw markdown in `content`.  Blank input returns the
default `Manifest` without touching `content`. -/
def parse (markdown : String) : Except String Manifest :=
  let md := pyStripL markdown.data
  if md.isEmpty then Except.ok {}
  else
    match (if detectCompactL md then parseCompactL md else Except.ok (parseHeadingL md)) with
    | Except.ok m => Except.ok { m with content := String.mk md }
    | Except.error e => Except.error e

/-! ## Serializer (`webagent/serializer.py`) -/

/-- `_serialize_param`. -/
def serializeParam (p : Param) : List Char :=
  let modifiers := [p.type.data]
    ++ [if p.required then "required".data else "optional".data]
    ++ (match p.default with
        | some d => ["default=".data ++ d.data]
        | none => [])
  let modStr := joinWith ", ".data modifiers
  let desc := if p.description.data.isEmpty then [] else ": ".data ++ p.description.data
  "- ".data ++ [btick] ++ p.name.data ++ [btick] ++ " (".data ++ modStr ++ [')'] ++ desc

/-- `_serialize_tool`: the list of output lines for one tool block. -/
def serializeTool (t : Tool) : List (List Char) :=
  ("## ".data ++ t.name.data)
    :: (if t.description.data.isEmpty then [] else [t.description.data])
    ++ [[]]
    ++ (if t.params.isEmpty then []
        else "### Params".data :: t.params.map serializeParam ++ [[]])
    ++ (if t.returns.data.isEmpty then []
        else ["### Output".data, "```typescript".data, t.returns.data, "```".data, []])
    ++ (if t.sample_code.data.isEmpty then []
        else ["### Sample Code".data, "```javascript".data, t.sample_code.data, "```".data])

/-- `to_markdown`: heading-dialect serialization. -/
def to_markdown (m : Manifest) : String :=
  let headLines : List (List Char) :=
    (if m.name.data.isEmpty then [] else ["# ".data ++ m.name.data])
      ++ (if m.description.data.isEmpty then [] else [m.description.data])
  let headLines := if headLines.isEmpty then [] else headLines ++ [[]]
  let allLines := headLines ++ m.tools.flatMap (fun t => serializeTool t ++ [[]])
  String.mk (pyRstripL (joinWith ['\n'] allLines) ++ ['\n'])

/-! ## Declaration generator (`webagent/codegen.py`) -/

/-- `_TS_TYPE_MAP.get(t, t)`. -/
def tsTypeMap (t : String) : String :=
  if t = "string" then "string"
  else if t = "number" then "number"
  else if t = "boolean" then "boolean"
  else if t = "object" then "Record<string, unknown>"
  else if t = "array" then "unknown[]"
  else t

/-- `_param_to_ts`: the optional marker depends only on the stored
`required` flag. -/
def paramToTs (p : Param) : String :=
  String.mk (p.name.data ++ (if p.required then [] else ['?']) ++ ": ".data ++ (tsTypeMap p.type).data)

/-- The JSDoc `@param` line for one param. -/
def jsdocParamLine (p : Param) : List Char :=
  let desc := if p.description.data.isEmpty then [] else ' ' :: p.description.data
  let dflt :=
    match p.default with
    | some d => if d.data.isEmpty then [] else " (default: ".data ++ d.data ++ [')']
    | none => []
  "   * @param ".data ++ p.name.data ++ " -".data ++ desc ++ dflt

/-- `_tool_declaration`. -/
def toolDeclaration (t : Tool) : String :=
  let docLines : List (List Char) :=
    ["  /**".data]
      ++ (if t.description.data.isEmpty then []
          else (pySplitlinesL t.description.data).map (fun l => "   * ".data ++ l))
      ++ (if t.params.isEmpty then []
          else (if t.description.data.isEmpty then [] else ["   *".data])
            ++ t.params.map jsdocParamLine)
      ++ ["   */".data]
  let paramsStr := joinWith ", ".data (t.params.map (fun p => (paramToTs p).data))
  let retType := if t.returns.data.isEmpty then "any".data else t.returns.data
  let sigLine := "  ".data ++ t.name.data ++ ['('] ++ paramsStr ++ "): Promise<".data
    ++ retType ++ ">;".data
  String.mk (joinWith ['\n'] (docLines ++ [sigLine]))

/-- `generate_typescript`. -/
def generateTypescript (m : Manifest) : String :=
  if m.tools.isEmpty then String.mk ("declare const global: ".data ++ ['{', '}'] ++ ";\n".data)
  else
    String.mk ("declare const global: ".data ++ ['{', '\n']
      ++ joinWith "\n\n".data (m.tools.map (fun t => (toolDeclaration t).data))
      ++ ['\n', '}'] ++ ";\n".data)

/-! ## Validation (`site.validate`) -/

/-- The f-string `f"Duplicate tool name: '{name}'."`. -/
def dupWarning (n : String) : String :=
  String.mk ("Duplicate tool name: ".data ++ [squote] ++ n.data ++ [squote] ++ ['.'])

/-- The f-string `f"Tool '{name}' has no description."`. -/
def noDescWarning (n : String) : String :=
  String.mk ("Tool ".data ++ [squote] ++ n.data ++ [squote] ++ " has no description.".data)

/-- The f-string `f"Tool '{name}' has no params and no sample_code."`. -/
def noParamsWarning (n : String) : String :=
  String.mk ("Tool ".data ++ [squote] ++ n.data ++ [squote] ++ " has no params and no sample_code.".data)

/-- The per-tool loop of `validate`, threading the `seen_names` set
(modelled as a list queried by membership; a name is added only in the
branch where it is nonempty and not yet seen, as in the code). -/
def validateToolsGo : List Tool → List String → List String
  | [], _ => []
  | t :: rest, seen =>
    (if t.name = "" then ["A tool has no name."]
     else if seen.contains t.name then [dupWarning t.name]
     else [])
      ++ (if t.description = "" then [noDescWarning t.name] else [])
      ++ (if t.params.isEmpty && t.sample_code = "" then [noParamsWarning t.name] else [])
      ++ validateToolsGo rest
          (if t.name = "" then seen
           else if seen.contains t.name then seen
           else t.name :: seen)

/-- `validate`: ordered list of warnings, empty means valid. -/
def validate (m : Manifest) : List String :=
  (if m.name = "" then ["Manifest has no name."] else [])
    ++ (if m.tools.isEmpty then ["Manifest has no tools."] else [])
    ++ validateToolsGo m.tools []

/-! ## Client tool lookup (`client.AgentClient`) -/

/-- The error kinds `AgentClient.get_tool` / `list_tools` can raise:
`RuntimeError` when no manifest is loaded, `KeyError` for an unknown tool. -/
inductive ClientError where
  | runtimeError (msg : String)
  | keyError (msg : String)
deriving Repr, DecidableEq

/-- Python's `repr` of a list of (quote-free) strings, as interpolated by
the `KeyError` message f-string. -/
def pyReprStrList (xs : List String) : String :=
  String.mk (['['] ++ joinWith ", ".data (xs.map (fun s => [squote] ++ s.data ++ [squote])) ++ [']'])

/-- The state of an `AgentClient` relevant to tool lookup. -/
structure AgentClient where
  manifest : Option Manifest := none
deriving Repr, DecidableEq

/-- The `RuntimeError` message shared by the guarded client operations. -/
def noManifestMsg : String := "No manifest loaded. Call detect() or load() first."

/-- `AgentClient.list_tools`. -/
def AgentClient.list_tools (c : AgentClient) : Except ClientError (List String) :=
  match c.manifest with
  | none => Except.error (ClientError.runtimeError noManifestMsg)
  | some m => Except.ok m.tool_names

/-- `AgentClient.get_tool`. -/
def AgentClient.get_tool (c : AgentClient) (name : String) : Except ClientError Tool :=
  match c.manifest with
  | none => Except.error (ClientError.runtimeError noManifestMsg)
  | some m =>
    match m.get_tool name with
    | none => Except.error (ClientError.keyError (String.mk
        ("Tool ".data ++ [squote] ++ name.data ++ [squote] ++ " not found. Available: ".data
          ++ (pyReprStrList m.tool_names).data)))
    | some t => Except.ok t

/-! ## Claim-support definitions

Spec-side reference definitions (for refinement comparisons) and
observable-behaviour helpers used by the claim theorems. -/

/-- Spec §4.5 reading of the per-tool warnings: a nameless tool is flagged
as such; a tool whose name already occurred among the earlier tools'
names (`prevNames`, queried as a set) is flagged as a duplicate; empty
description and missing params/sample-code are flagged independently. -/
def specToolWarnings (prevNames : List String) (t : Tool) : List String :=
  (if t.name = "" then ["A tool has no name."]
   else if prevNames.contains t.name then [dupWarning t.name]
   else [])
    ++ (if t.description = "" then [noDescWarning t.name] else [])
    ++ (if t.params.isEmpty && t.sample_code = "" then [noParamsWarning t.name] else [])

/-- Spec §4.5 reading of `validate`, walking the tools in declaration
order; `prev` holds the names of the already-visited tools (used only as
a membership test). -/
def specValidateGo : List String → List Tool → List String
  | _, [] => []
  | prev, t :: rest => specToolWarnings prev t ++ specValidateGo (t.name :: prev) rest

/-- Spec §4.5 reading of `validate` as an ordered warning list. -/
def specValidate (m : Manifest) : List String :=
  (if m.name = "" then ["Manifest has no name."] else [])
    ++ (if m.tools.isEmpty then ["Manifest has no tools."] else [])
    ++ specValidateGo [] m.tools

/-- Spec §4.1 reading of one comma-separated header-argument entry:
`name` is required with the generic type, `name=literal` is optional with
the literal (quote characters stripped) as default. -/
def specSignatureParam (entry : List Char) : Option Param :=
  if (pyStripL entry).isEmpty then none
  else if (pyStripL entry).contains '=' then
    some { name := String.mk (pyStripL ((pyStripL entry).takeWhile (· ≠ '='))), description := "",
           required := false,
           default := some (String.mk (pyStripCharsL [squote, '"']
             (pyStripL (((pyStripL entry).dropWhile (· ≠ '=')).drop 1)))) }
  else some { name := String.mk (pyStripL entry), description := "" }

/-- Spec §4.1 reading of `_params_from_signature`. -/
def specParamsFromSignature (sig : List Char) : List Param :=
  (splitCharL ',' sig).filterMap specSignatureParam

/-- Whether a modifier token list is free of a `required` token occurring
after a `default=` token (the order on which the parser-produced
default/required invariant can break). -/
def modsOkGo : Bool → List (List Char) → Bool
  | _, [] => true
  | seen, tk :: rest =>
    let mm := pyStripL tk
    if seen && mm = "required".data then false
    else modsOkGo (seen || isPrefixL "default=".data mm) rest

/-- A heading params line is benign when it either does not match the
param pattern or its modifier list has no `required` after `default=`. -/
def modsOkLine (line0 : List Char) : Bool :=
  match matchParam (pyStripL line0) with
  | some (_, mods, _) => modsOkGo false (splitCharL ',' mods)
  | none => true

/-- The name the header fold ends with: the stripped remainder of the last
`# ` line, or the incoming name when there is none. -/
def lastHashName (lines : List (List Char)) (name0 : List Char) : List Char :=
  match (lines.filter (fun l => isPrefixL ['#', ' '] l)).getLast? with
  | some l => pyStripL (l.drop 2)
  | none => name0

/-- Concrete param used by the C4 witness. -/
def c4WitnessParam : Param :=
  { name := "q", type := "number", description := "d",
    required := false, default := some "5" }

/-- Concrete tool used by the C4 witness. -/
def c4WitnessTool : Tool :=
  { name := "t", description := "", params := [c4WitnessParam],
    returns := "", sample_code := "" }

/-- Concrete manifest used by the C4 witness. -/
def c4WitnessManifest : Manifest :=
  { name := "", description := "", tools := [c4WitnessTool],
    content := "## t\n### Params\n- `q` (number, default=5): d" }

/-! ## Claim theorems -/

/-- C1: the round-trip guarantee fails on the code.  The heading-dialect
parser accepts `x ``` y` as a tool's sample code (the three backticks do
not form a fenced block there), but `to_markdown` wraps sample code in an
unescaped fenced block, so re-parsing the serialization extracts only `x`:
tool names and order survive, `sample_code` does not. -/
theorem c1_roundtrip_loses_fenced_sample_code :
    (parse "## t\n### Sample Code\nx ``` y").map (fun m => m.tools.map Tool.sample_code)
        = Except.ok ["x ``` y"]
      ∧ ((parse "## t\n### Sample Code\nx ``` y").bind
            (fun m => parse (to_markdown m))).map (fun m => m.tools.map Tool.sample_code)
        = Except.ok ["x"]
      ∧ ((parse "## t\n### Sample Code\nx ``` y").bind
            (fun m => parse (to_markdown m))).map (fun m => m.tools.map Tool.name)
        = Except.ok ["t"] :=
  ⟨rfl, rfl, rfl⟩

/-- C2 counterexample: a `Param` with a default but `required = true` is
rendered without the `?` marker, so the Declaration Generator does not
treat a defaulted param as optional regardless of the `required` flag. -/
theorem c2_counterexample_default_with_required :
    paramToTs { name := "q", required := true, default := some "5" } = "q: string"
      ∧ paramToTs { name := "q", required := true, default := some "5" } ≠ "q?: string" :=
  ⟨rfl, by decide⟩

/-- C2 amended: `_param_to_ts` emits the `?` optional marker exactly when
the stored `required` flag is false; the `default` field is ignored, so a
defaulted-but-required param renders as required. -/
theorem c2_optional_marker_iff_not_required (p : Param) :
    (∃ rest, (paramToTs p).data = p.name.data ++ '?' :: rest) ↔ p.required = false := by
  constructor
  · rintro ⟨rest, h⟩
    by_contra hreq
    simp only [Bool.not_eq_false] at hreq
    have h' : (paramToTs p).data
        = p.name.data ++ (':' :: ' ' :: (tsTypeMap p.type).data) := by
      simp [paramToTs, hreq, List.append_assoc]
    have h2 := congrArg (List.drop p.name.data.length) (h'.symm.trans h)
    simp only [List.drop_left] at h2
    simp at h2
  · intro h
    refine ⟨(": ").data ++ (tsTypeMap p.type).data, ?_⟩
    simp [paramToTs, h, List.append_assoc]

/-- C3: the claim that `parse` never raises fails on the code.  In
`re.split(r"(?m)^tool:\s+", ...)` the greedy `\s+` can consume the newline
after a bare `tool:`, letting the next `tool: ` match start immediately and
producing an empty block, on which `_parse_compact_tool` raises
`ValueError("Empty tool block")` (modelled as `Except.error`). -/
theorem c3_parse_raises_on_adjacent_tool_markers :
    parse "tool:\ntool: b" = Except.error "Empty tool block" ∧
      splitToolL (pyStripL ("tool:\ntool: b").data) = ["".data, "".data, "b".data] :=
  ⟨rfl, rfl⟩

/-- Joining a list that ends with `y` produces a string ending with `y`. -/
theorem joinWith_snoc (sep : List Char) (xs : List (List Char)) (y : List Char) :
    ∃ pre, joinWith sep (xs ++ [y]) = pre ++ y := by
  induction xs with
  | nil => exact ⟨[], rfl⟩
  | cons x xs ih =>
    rcases ih with ⟨p, hp⟩
    cases xs with
    | nil => exact ⟨x ++ sep, by simp [joinWith]⟩
    | cons z zs =>
      exact ⟨x ++ sep ++ p, by simp [joinWith, hp.symm, List.append_assoc]⟩

/-- C8: an empty tool list yields the empty container declaration; a tool
with zero params gets a zero-argument signature, and with an empty returns
field its member line ends in `name(): Promise<any>;` (witnessed by the
`getBasket` example). -/
theorem c8_declaration_edge_cases :
    (∀ m : Manifest, m.tools = [] →
        generateTypescript m
          = String.mk ("declare const global: ".data ++ ['{', '}'] ++ ";\n".data))
      ∧ (∀ t : Tool, t.params = [] → t.returns = "" →
          ∃ pre, (toolDeclaration t).data
            = pre ++ ("  ".data ++ t.name.data ++ "(): Promise<any>;".data))
      ∧ toolDeclaration { name := "getBasket" } = "  /**\n   */\n  getBasket(): Promise<any>;" := by
  refine ⟨?_, ?_, rfl⟩
  · intro m h
    simp [generateTypescript, h]
  · intro t hp hr
    obtain ⟨name, desc, params, rets, sample⟩ := t
    simp only at hp hr
    subst hp hr
    simp only [toolDeclaration]
    obtain ⟨p, hjoin⟩ := joinWith_snoc ['\n']
      (["  /**".data]
        ++ (if desc.data.isEmpty then []
            else (pySplitlinesL desc.data).map (fun l => "   * ".data ++ l))
        ++ ["   */".data])
      ("  ".data ++ name.data ++ ['('] ++ joinWith ", ".data []
        ++ "): Promise<".data ++ "any".data ++ ">;".data)
    refine ⟨p, ?_⟩
    simpa [toolDeclaration, joinWith, List.append_assoc] using hjoin

/-- Closed witness for the C8 theorem at concrete inputs. -/
theorem c8_declaration_edge_cases_witness :
    generateTypescript {}
        = String.mk ("declare const global: ".data ++ ['{', '}'] ++ ";\n".data)
      ∧ ∃ pre, (toolDeclaration { name := "getBasket" }).data
          = pre ++ ("  ".data ++ ("getBasket" : String).data ++ "(): Promise<any>;".data) :=
  ⟨c8_declaration_edge_cases.1 {} rfl,
   c8_declaration_edge_cases.2.1 { name := "getBasket" } rfl rfl⟩

/-- `find?` returns the head of the filtered list. -/
theorem find?_eq_head?_filter {α : Type} (p : α → Bool) (l : List α) :
    l.find? p = (l.filter p).head? := by
  induction l with
  | nil => rfl
  | cons x xs ih =>
    by_cases h : p x
    · rw [List.find?_cons_of_pos _ h, List.filter_cons_of_pos h]
      rfl
    · rw [List.find?_cons_of_neg _ h, List.filter_cons_of_neg h, ih]

/-- C9: `get_tool` / `list_tools` on a client without a loaded manifest
fail with the no-manifest `RuntimeError`; with a loaded manifest and an
absent name, `get_tool` fails with a `KeyError` (an error kind distinct
from the runtime error used elsewhere); with a present name it returns
the first tool bearing that name. -/
theorem c9_client_lookup_errors :
    (∀ (c : AgentClient) (n : String), c.manifest = none →
        c.get_tool n = Except.error (ClientError.runtimeError noManifestMsg)
          ∧ c.list_tools = Except.error (ClientError.runtimeError noManifestMsg))
      ∧ (∀ (c : AgentClient) (m : Manifest) (n : String), c.manifest = some m →
          m.get_tool n = none →
          c.get_tool n = Except.error (ClientError.keyError (String.mk
            ("Tool ".data ++ [squote] ++ n.data ++ [squote] ++ " not found. Available: ".data
              ++ (pyReprStrList m.tool_names).data))))
      ∧ (∀ a b : String, ClientError.keyError a ≠ ClientError.runtimeError b)
      ∧ (∀ (c : AgentClient) (m : Manifest) (n : String), c.manifest = some m →
          m.get_tool n = (m.tools.filter (fun t => t.name = n)).head?
            ∧ ∀ t : Tool, m.get_tool n = some t → c.get_tool n = Except.ok t) := by
  refine ⟨?_, ?_, ?_, ?_⟩
  · intro c n h
    exact ⟨by simp [AgentClient.get_tool, h], by simp [AgentClient.list_tools, h]⟩
  · intro c m n hc hm
    simp [AgentClient.get_tool, hc, hm]
  · intro a b h
    cases h
  · intro c m n hc
    refine ⟨find?_eq_head?_filter _ _, fun t ht => ?_⟩
    simp [AgentClient.get_tool, hc, ht]

/-- Closed witness for the C9 theorem at concrete clients. -/
theorem c9_client_lookup_errors_witness :
    AgentClient.get_tool {} "q" = Except.error (ClientError.runtimeError noManifestMsg)
      ∧ AgentClient.get_tool
            { manifest := some { tools := [{ name := "a", description := "first" }, { name := "a" }] } } "b"
          = Except.error (ClientError.keyError (String.mk
              ("Tool ".data ++ [squote] ++ ("b" : String).data ++ [squote] ++ " not found. Available: ".data
                ++ (pyReprStrList (Manifest.tool_names
                      { tools := [{ name := "a", description := "first" }, { name := "a" }] })).data)))
      ∧ AgentClient.get_tool
            { manifest := some { tools := [{ name := "a", description := "first" }, { name := "a" }] } } "a"
          = Except.ok { name := "a", description := "first" } :=
  ⟨(c9_client_lookup_errors.1 {} "q" rfl).1,
   c9_client_lookup_errors.2.1 _ _ "b" rfl rfl,
   (c9_client_lookup_errors.2.2.2 _
     { tools := [{ name := "a", description := "first" }, { name := "a" }] } "a" rfl).2 _ rfl⟩

/-- The implementation's threaded `seen` set agrees with the spec-side
prefix of previously declared names, as long as the two agree as membership
tests on nonempty names (empty names are never added by the code and never
queried, since the empty-name branch fires first). -/
theorem validateGo_eq_specGo (tools : List Tool) :
    ∀ seen prev : List String,
      (∀ s : String, s ≠ "" → seen.contains s = prev.contains s) →
      validateToolsGo tools seen = specValidateGo prev tools := by
  induction tools with
  | nil => intro seen prev _; rfl
  | cons t rest ih =>
    intro seen prev hinv
    have hcons : ∀ (a : String) (l : List String) (s : String),
        (a :: l).contains s = (s == a || l.contains s) := by
      intro a l s
      rfl
    by_cases hname : t.name = ""
    · simp only [validateToolsGo, specValidateGo, specToolWarnings, hname, if_pos]
      rw [ih seen (("" : String) :: prev) ?_]
      intro s hs
      have hsb : (s == "") = false := by
        simpa [beq_eq_false_iff_ne] using hs
      rw [hcons, hsb, Bool.false_or]
      exact hinv s hs
    · have hq := hinv t.name hname
      by_cases hseen : seen.contains t.name = true
      · simp only [validateToolsGo, specValidateGo, specToolWarnings, hname, if_neg, hseen,
          hq ▸ hseen, if_pos, if_false, if_true]
        rw [ih seen (t.name :: prev) ?_]
        intro s hs
        rw [hcons]
        cases hsb : (s == t.name)
        · rw [Bool.false_or]
          exact hinv s hs
        · have : s = t.name := by simpa using hsb
          subst this
          rw [Bool.true_or, hseen]
      · have hseen' : seen.contains t.name = false := by simpa using hseen
        simp only [validateToolsGo, specValidateGo, specToolWarnings, hname, if_neg, hseen',
          hq ▸ hseen', Bool.false_eq_true, if_false]
        rw [ih (t.name :: seen) (t.name :: prev) ?_]
        intro s hs
        rw [hcons, hcons, hinv s hs]

/-- C6: `validate` emits exactly the warnings the spec enumerates, in
manifest-then-tool declaration order, as shown by agreement with the
spec-worded reference `specValidate`; both are pure functions of the
`Manifest` value. -/
theorem c6_validate_matches_spec (m : Manifest) : validate m = specValidate m := by
  unfold validate specValidate
  rw [validateGo_eq_specGo m.tools [] [] (fun _ _ => rfl)]

/-- A `# ` line makes `lastHashName` continue with that line's stripped
remainder as the pending name. -/
theorem lastHashName_cons_hash (l : List Char) (rest : List (List Char)) (name0 : List Char)
    (h : isPrefixL ['#', ' '] l = true) :
    lastHashName (l :: rest) name0 = lastHashName rest (pyStripL (l.drop 2)) := by
  unfold lastHashName
  rw [List.filter_cons_of_pos h]
  cases hfr : (rest.filter (fun l => isPrefixL ['#', ' '] l)) with
  | nil => rfl
  | cons y ys =>
    rw [List.getLast?_cons_cons]
    cases hgl : (y :: ys).getLast? with
    | none => simp [List.getLast?_cons] at hgl
    | some z => rfl

/-- A non-`# ` line does not affect `lastHashName`. -/
theorem lastHashName_cons_other (l : List Char) (rest : List (List Char)) (name0 : List Char)
    (h : ¬ isPrefixL ['#', ' '] l = true) :
    lastHashName (l :: rest) name0 = lastHashName rest name0 := by
  unfold lastHashName
  rw [List.filter_cons_of_neg h]

/-- The name computed by the header fold is the stripped remainder of the
last `# ` line (overwrite semantics), or the incoming name without one. -/
theorem headerGo_name (lines : List (List Char)) :
    ∀ name0 descRev, (headerGo lines name0 descRev).1 = lastHashName lines name0 := by
  induction lines with
  | nil =>
    intro name0 d
    rfl
  | cons l rest ih =>
    intro name0 d
    by_cases h : isPrefixL ['#', ' '] l = true
    · rw [lastHashName_cons_hash l rest name0 h]
      simp only [headerGo, h, if_pos]
      exact ih _ _
    · rw [lastHashName_cons_other l rest name0 h]
      simp only [headerGo, h, Bool.false_eq_true, if_false]
      by_cases hn : name0.isEmpty
      · simp only [hn, Bool.not_true, Bool.false_eq_true, if_false]
        exact ih _ _
      · simp only [Bool.not_eq_true] at hn
        simp only [hn, Bool.not_false, if_true]
        exact ih _ _

/-- Every line the header fold collects as description either came in with
the accumulator or is a non-`# ` line of the input. -/
theorem headerGo_desc_mem (lines : List (List Char)) :
    ∀ name0 descRev l, l ∈ (headerGo lines name0 descRev).2 →
      l ∈ descRev.reverse ∨ (l ∈ lines ∧ isPrefixL ['#', ' '] l = false) := by
  induction lines with
  | nil =>
    intro name0 d l hl
    exact Or.inl hl
  | cons x rest ih =>
    intro name0 d l hl
    by_cases h : isPrefixL ['#', ' '] x = true
    · simp only [headerGo, h, if_pos] at hl
      rcases ih _ _ _ hl with hd | ⟨hmem, hnh⟩
      · exact Or.inl hd
      · exact Or.inr ⟨List.mem_cons_of_mem _ hmem, hnh⟩
    · simp only [headerGo, h, Bool.false_eq_true, if_false] at hl
      by_cases hn : name0.isEmpty
      · simp only [hn, Bool.not_true, Bool.false_eq_true, if_false] at hl
        rcases ih _ _ _ hl with hd | ⟨hmem, hnh⟩
        · exact Or.inl hd
        · exact Or.inr ⟨List.mem_cons_of_mem _ hmem, hnh⟩
      · simp only [Bool.not_eq_true] at hn
        simp only [hn, Bool.not_false, if_true] at hl
        rcases ih _ _ _ hl with hd | ⟨hmem, hnh⟩
        · rw [List.reverse_cons] at hd
          rcases List.mem_append.mp hd with hd' | hd'
          · exact Or.inl hd'
          · rcases List.mem_singleton.mp hd' with rfl
            exact Or.inr ⟨List.mem_cons_self _ _, Bool.not_eq_true _ ▸ (by simpa using h)⟩
        · exact Or.inr ⟨List.mem_cons_of_mem _ hmem, hnh⟩

/-- With no `# ` line and no pending name, the header fold collects
nothing: the name stays empty and no description line is ever taken. -/
theorem headerGo_no_hash (lines : List (List Char))
    (h : ∀ l ∈ lines, isPrefixL ['#', ' '] l = false) :
    ∀ descRev, headerGo lines [] descRev = ([], descRev.reverse) := by
  induction lines with
  | nil =>
    intro d
    rfl
  | cons x rest ih =>
    intro d
    have hx : isPrefixL ['#', ' '] x = false := h x (List.mem_cons_self _ _)
    simp only [headerGo, hx, Bool.false_eq_true, if_false, List.isEmpty_nil, Bool.not_true]
    exact ih (fun l hl => h l (List.mem_cons_of_mem _ hl)) d

/-- C10: heading-dialect header collection.  (a) On a heading-dialect
document whose header segment has no line starting with `# `, `parse`
yields an empty name and an empty description, whatever the header text.
(b) The manifest name is the stripped remainder of the last `# ` line of
the header (each later `# ` line overwrites the earlier name).  (c) A `# `
line is never collected among the description lines. -/
theorem c10_header_hash_gating :
    (∀ md : String, detectCompactL (pyStripL md.data) = false →
      (∀ l ∈ pySplitlinesL (pyStripL ((splitH2 (pyStripL md.data)).headD [])),
          isPrefixL ['#', ' '] l = false) →
      (parse md).map Manifest.name = Except.ok ""
        ∧ (parse md).map Manifest.description = Except.ok "")
      ∧ (∀ (lines : List (List Char)) (name0 : List Char) (dRev : List (List Char)),
          (headerGo lines name0 dRev).1 = lastHashName lines name0)
      ∧ (∀ (lines : List (List Char)) (name0 : List Char) (l : List Char),
          l ∈ (headerGo lines name0 []).2 → l ∈ lines ∧ isPrefixL ['#', ' '] l = false) := by
  refine ⟨?_, fun lines name0 dRev => headerGo_name lines name0 dRev, ?_⟩
  · intro md hdetect hnohash
    by_cases hempty : (pyStripL md.data).isEmpty
    · constructor <;> simp [parse, hempty, Except.map]
    · have hname : parseManifestHeaderL ((splitH2 (pyStripL md.data)).headD [])
          = ([], []) := by
        unfold parseManifestHeaderL
        rw [headerGo_no_hash _ ?_ []]
        · rfl
        · intro l hl
          exact hnohash l hl
      simp only [List.headD_eq_head?_getD] at hname
      constructor <;>
        simp only [parse, hempty, hdetect, Bool.false_eq_true, if_false, Except.map,
          parseHeadingL, List.headD_eq_head?_getD, hname]
  · intro lines name0 l hl
    rcases headerGo_desc_mem lines name0 [] l hl with hd | h
    · simp at hd
    · exact h

/-- Closed witness for the C10 theorem: a header with text but no `# `
line parses to an empty name and an empty description. -/
theorem c10_header_hash_gating_witness :
    detectCompactL (pyStripL ("Plain header text\nwith two lines" : String).data) = false
      ∧ (parse "Plain header text\nwith two lines").map Manifest.name = Except.ok ""
      ∧ (parse "Plain header text\nwith two lines").map Manifest.description = Except.ok "" :=
  ⟨rfl,
   (c10_header_hash_gating.1 "Plain header text\nwith two lines" rfl (by decide)).1,
   (c10_header_hash_gating.1 "Plain header text\nwith two lines" rfl (by decide)).2⟩

/-- C5 counterexample: `"tool: nope"` contains no line of the exact shape
`tool: <identifier>(<arglist>)` (the `_TOOL_HEADER_RE` shape), yet `parse`
processes the document with the compact dialect and produces a tool named
`nope`, while the heading parser would have produced zero tools. -/
theorem c5_counterexample_loose_detection :
    ((pySplitlinesL (pyStripL ("tool: nope" : String).data)).all
        (fun l => (matchToolHeader l).isNone)) = true
      ∧ (parse "tool: nope").map (fun m => m.tools.map Tool.name) = Except.ok ["nope"]
      ∧ parseHeadingL (pyStripL ("tool: nope" : String).data)
          = { name := "", description := "", tools := [] } :=
  ⟨rfl, rfl, rfl⟩

/-- The detection scan succeeds exactly when `tool:` followed by a
whitespace character occurs at the start of the string or right after a
newline. -/
theorem detectCompactGo_iff (cs : List Char) :
    ∀ b : Bool, detectCompactGo b cs = true ↔
      ((b = true ∧ toolColonWs cs = true)
        ∨ ∃ pre0 suf, cs = pre0 ++ '\n' :: suf ∧ toolColonWs suf = true) := by
  induction cs with
  | nil =>
    intro b
    constructor
    · intro h
      simp [detectCompactGo] at h
    · rintro (⟨_, ht⟩ | ⟨p, s, heq, _⟩)
      · simp [toolColonWs] at ht
      · cases p <;> simp at heq
  | cons c rest ih =>
    intro b
    rw [show detectCompactGo b (c :: rest)
        = if b && toolColonWs (c :: rest) then true
          else detectCompactGo (decide (c = '\n')) rest from rfl]
    cases hcond : (b && toolColonWs (c :: rest)) with
    | true =>
      simp only [if_true]
      rcases Bool.and_eq_true _ _ |>.mp hcond with ⟨hb, ht⟩
      simp [hb, ht]
    | false =>
      simp only [Bool.false_eq_true, if_false]
      rw [ih]
      constructor
      · rintro (⟨hc, ht⟩ | ⟨p, s, heq, ht⟩)
        · have : c = '\n' := of_decide_eq_true hc
          subst this
          exact Or.inr ⟨[], rest, rfl, ht⟩
        · exact Or.inr ⟨c :: p, s, by rw [heq]; rfl, ht⟩
      · rintro (⟨hb, ht⟩ | ⟨p, s, heq, ht⟩)
        · rw [hb, ht] at hcond
          simp at hcond
        · cases p with
          | nil =>
            simp only [List.nil_append] at heq
            cases heq
            exact Or.inl ⟨by simp, ht⟩
          | cons q qs =>
            simp only [List.cons_append] at heq
            cases heq
            exact Or.inr ⟨qs, s, rfl, ht⟩

/-- C5 amended: the dialect decision is document-global and made by the
scan `^tool:\s+` — any line-start occurrence of `tool:` followed by one
whitespace character (possibly the newline ending the line) selects the
compact dialect for the whole document, regardless of whether the line has
the full `tool: <identifier>(<arglist>)` shape; otherwise `parse` uses the
heading dialect. -/
theorem c5_detection_by_tool_colon_ws :
    (∀ cs : List Char, detectCompactL cs = true ↔
        ((∃ suf, cs = suf ∧ toolColonWs suf = true)
          ∨ ∃ pre0 suf, cs = pre0 ++ '\n' :: suf ∧ toolColonWs suf = true))
      ∧ (∀ md : String, (pyStripL md.data).isEmpty = false →
          parse md = if detectCompactL (pyStripL md.data)
            then (parseCompactL (pyStripL md.data)).map
                  (fun m => { m with content := String.mk (pyStripL md.data) })
            else Except.ok { parseHeadingL (pyStripL md.data) with
                  content := String.mk (pyStripL md.data) }) := by
  constructor
  · intro cs
    rw [show detectCompactL cs = detectCompactGo true cs from rfl, detectCompactGo_iff]
    constructor
    · rintro (⟨_, ht⟩ | h)
      · exact Or.inl ⟨cs, rfl, ht⟩
      · exact Or.inr h
    · rintro (⟨s, rfl, ht⟩ | h)
      · exact Or.inl ⟨rfl, ht⟩
      · exact Or.inr h
  · intro md h
    rw [show parse md
        = (if (pyStripL md.data).isEmpty then Except.ok {}
           else match (if detectCompactL (pyStripL md.data)
                       then parseCompactL (pyStripL md.data)
                       else Except.ok (parseHeadingL (pyStripL md.data))) with
                | Except.ok m => Except.ok { m with content := String.mk (pyStripL md.data) }
                | Except.error e => Except.error e) from rfl]
    rw [h]
    cases hd : detectCompactL (pyStripL md.data) with
    | false => simp
    | true =>
      simp only [if_true, Bool.false_eq_true, if_false]
      cases hres : parseCompactL (pyStripL md.data) with
      | ok m => simp [Except.map]
      | error e => simp [Except.map]

/-- Closed witness for the C5 theorem: the dispatch equation applied to
the concrete document `"tool: nope"`. -/
theorem c5_detection_by_tool_colon_ws_witness :
    parse "tool: nope" = (if detectCompactL (pyStripL ("tool: nope" : String).data)
      then (parseCompactL (pyStripL ("tool: nope" : String).data)).map
            (fun m => { m with content := String.mk (pyStripL ("tool: nope" : String).data) })
      else Except.ok { parseHeadingL (pyStripL ("tool: nope" : String).data) with
            content := String.mk (pyStripL ("tool: nope" : String).data) }) :=
  c5_detection_by_tool_colon_ws.2 "tool: nope" rfl

/-- C7 counterexample: in `"tool: f(x)\n  params:\n  description: d"` a
`params` section is present (its key line matches the section-key test)
and yields zero `Param`s, yet the tool ends up with the param `x`
synthesized from the header argument list — contradicting "exactly when no
`params` section is present". -/
theorem c7_counterexample_empty_params_section :
    (parse "tool: f(x)\n  params:\n  description: d").map
        (fun m => m.tools.map (fun t => t.params.map Param.name)) = Except.ok [["x"]]
      ∧ isSectionKeyLine ("  params:" : String).data = true
      ∧ parseCompactParamsL [] ("x" : String).data = [] :=
  ⟨rfl, rfl, rfl⟩

/-- `str.split(sep, 1)` in terms of `takeWhile`/`dropWhile`/`contains`. -/
theorem splitOnceCharGo_spec (sep : Char) (cs : List Char) :
    ∀ acc, splitOnceCharGo sep acc cs
      = (acc.reverse ++ cs.takeWhile (· ≠ sep),
         if cs.contains sep then some ((cs.dropWhile (· ≠ sep)).drop 1) else none) := by
  induction cs with
  | nil =>
    intro acc
    simp [splitOnceCharGo, List.contains]
  | cons c rest ih =>
    intro acc
    have hcont : (c :: rest).contains sep = (sep == c || rest.contains sep) := rfl
    by_cases h : c = sep
    · subst h
      simp [splitOnceCharGo, hcont, List.takeWhile_cons, List.dropWhile_cons]
    · have h1 : splitOnceCharGo sep acc (c :: rest) = splitOnceCharGo sep (c :: acc) rest := by
        simp [splitOnceCharGo, h]
      have h2 : List.takeWhile (fun x => decide (x ≠ sep)) (c :: rest)
          = c :: List.takeWhile (fun x => decide (x ≠ sep)) rest := by
        simp [List.takeWhile_cons, h]
      have h3 : List.dropWhile (fun x => decide (x ≠ sep)) (c :: rest)
          = List.dropWhile (fun x => decide (x ≠ sep)) rest := by
        simp [List.dropWhile_cons, h]
      have h4 : (c :: rest).contains sep = rest.contains sep := by
        rw [hcont]
        have hb : (sep == c) = false := by
          simp only [beq_eq_false_iff_ne]
          exact fun hh => h hh.symm
        rw [hb, Bool.false_or]
      rw [h1, ih (c :: acc), h2, h3, h4]
      simp [List.append_assoc]

/-- `_params_from_signature` agrees with the spec-worded description of
header-argument synthesis (each entry `name` is required with the generic
type; each `name=literal` is optional with the quote-stripped literal). -/
theorem paramsFromSignature_eq_spec (sig : List Char) :
    paramsFromSignatureL sig = specParamsFromSignature sig := by
  unfold paramsFromSignatureL specParamsFromSignature
  congr 1
  funext part0
  rw [show splitOnceCharL '=' (pyStripL part0) = splitOnceCharGo '=' [] (pyStripL part0) from rfl,
    splitOnceCharGo_spec]
  unfold specSignatureParam
  by_cases hempty : (pyStripL part0).isEmpty
  · simp [hempty]
  · simp only [hempty, Bool.false_eq_true, if_false]
    cases hc : (pyStripL part0).contains '=' with
    | true => simp [hc]
    | false => simp [hc]

/-- C7 amended: header-argument params are synthesized exactly when the
parsed params list is empty — whether because no `params` section was
present or because a present `params` section yielded zero `Param`s — and
the raw header argument string is nonempty; the synthesized entries follow
the spec's per-entry description. -/
theorem c7_synthesis_when_parsed_params_empty :
    (∀ sig : List Char, paramsFromSignatureL sig = specParamsFromSignature sig)
      ∧ (∀ (block first : List Char) (rest : List (List Char)),
          pySplitlinesL (pyStripL block) = first :: rest →
          (parseCompactToolL block).map Tool.params
            = Except.ok
                (if (compactSectionsGo (compactHeaderOf first).2 rest [] [] {}).params.isEmpty
                      && !(compactHeaderOf first).2.isEmpty
                 then specParamsFromSignature (compactHeaderOf first).2
                 else (compactSectionsGo (compactHeaderOf first).2 rest [] [] {}).params)) := by
  refine ⟨paramsFromSignature_eq_spec, ?_⟩
  intro block first rest h
  simp only [parseCompactToolL, h, Except.map, paramsFromSignature_eq_spec]

/-- Closed witness for the C7 theorem at the concrete counterexample
block. -/
theorem c7_synthesis_when_parsed_params_empty_witness :
    (parseCompactToolL ("f(x)\n  params:\n  description: d" : String).data).map Tool.params
      = Except.ok
          (if (compactSectionsGo
                  (compactHeaderOf ("f(x)" : String).data).2
                  [("  params:" : String).data, ("  description: d" : String).data] [] [] {}).params.isEmpty
                && !(compactHeaderOf ("f(x)" : String).data).2.isEmpty
           then specParamsFromSignature (compactHeaderOf ("f(x)" : String).data).2
           else (compactSectionsGo
                  (compactHeaderOf ("f(x)" : String).data).2
                  [("  params:" : String).data, ("  description: d" : String).data] [] [] {}).params) :=
  c7_synthesis_when_parsed_params_empty.2 ("f(x)\n  params:\n  description: d" : String).data
    ("f(x)" : String).data
    [("  params:" : String).data, ("  description: d" : String).data] rfl

/-- C4 counterexample: the heading params line `- `q` (default=5, required): d`
has its modifiers applied in order, so the trailing `required` token
re-sets the flag after `default=5` cleared it, and `parse` emits a Param
with a default and `required = true`. -/
theorem c4_counterexample_required_after_default :
    (parse "## t\n### Params\n- `q` (default=5, required): d").map
        (fun m => m.tools.map (fun t => t.params.map (fun p => (p.required, p.default))))
      = Except.ok [[(true, some "5")]] :=
  rfl

/-- One modifier step preserves the default/required invariant, tracking
whether a `default=` token has been seen and assuming no `required` token
arrives once one has. -/
theorem applyModifier_step_inv (st : String × Bool × Option String) (tk : List Char)
    (seen : Bool)
    (hcond : (seen && decide (pyStripL tk = "required".data)) = false)
    (hinv : st.2.2 ≠ none → st.2.1 = false ∧ seen = true) :
    (applyModifier st tk).2.2 ≠ none →
      (applyModifier st tk).2.1 = false
        ∧ (seen || isPrefixL "default=".data (pyStripL tk)) = true := by
  intro hd
  unfold applyModifier at hd ⊢
  by_cases h1 : pyStripL tk = "optional".data
  · simp only [h1, if_pos] at hd ⊢
    rcases hinv hd with ⟨_, hs⟩
    exact ⟨by trivial, by simp [hs]⟩
  · simp only [h1, if_false] at hd ⊢
    by_cases h2 : pyStripL tk = "required".data
    · simp only [h2, if_pos] at hd ⊢
      rcases hinv hd with ⟨_, hs⟩
      rw [hs, h2] at hcond
      simp at hcond
    · simp only [h2, if_false] at hd ⊢
      by_cases h3 : isPrefixL "default=".data (pyStripL tk) = true
      · simp only [h3, if_pos] at hd ⊢
        exact ⟨by trivial, by simp [h3]⟩
      · simp only [h3, Bool.false_eq_true, if_false] at hd ⊢
        rcases hinv hd with ⟨hr, hs⟩
        exact ⟨hr, by simp [hs]⟩

/-- The modifier fold never produces a default together with
`required = true` when no `required` token follows a `default=` token. -/
theorem applyModifier_fold_inv (toks : List (List Char)) :
    ∀ (seen : Bool) (st : String × Bool × Option String),
      modsOkGo seen toks = true →
      (st.2.2 ≠ none → st.2.1 = false ∧ seen = true) →
      (toks.foldl applyModifier st).2.2 ≠ none → (toks.foldl applyModifier st).2.1 = false := by
  induction toks with
  | nil =>
    intro seen st _ hinv hd
    exact (hinv hd).1
  | cons tk rest ih =>
    intro seen st hok hinv hd
    rw [List.foldl_cons] at hd ⊢
    simp only [modsOkGo] at hok
    cases hc : (seen && decide (pyStripL tk = "required".data)) with
    | true =>
      rw [hc] at hok
      simp at hok
    | false =>
      rw [hc] at hok
      simp only [Bool.false_eq_true, if_false] at hok
      exact ih _ _ hok (applyModifier_step_inv st tk seen hc hinv) hd

/-- Params built by `_parse_params_block` satisfy the invariant on every
line whose modifier list has no `required` token after a `default=`. -/
theorem parseParamsBlockL_inv (text : List Char)
    (hlines : ∀ l ∈ pySplitlinesL (pyStripL text), modsOkLine l = true) :
    ∀ p ∈ parseParamsBlockL text, p.default ≠ none → p.required = false := by
  intro p hp hd
  unfold parseParamsBlockL at hp
  rcases List.mem_filterMap.mp hp with ⟨line0, hline0, hsome⟩
  cases hm : matchParam (pyStripL line0) with
  | none =>
    rw [hm] at hsome
    cases hsome
  | some t3 =>
    obtain ⟨nm, mods, g3⟩ := t3
    rw [hm] at hsome
    simp only [Option.some.injEq] at hsome
    subst hsome
    have hok : modsOkGo false (splitCharL ',' mods) = true := by
      have hl := hlines line0 hline0
      unfold modsOkLine at hl
      rw [hm] at hl
      exact hl
    exact applyModifier_fold_inv (splitCharL ',' mods) false ("string", true, none) hok
      (fun hc => absurd rfl hc) hd

/-- The compact default lookup only ever sets a default together with
`required = false`. -/
theorem compactDefaultFold_inv (pname : List Char) (parts : List (List Char)) :
    ∀ st : Option (List Char) × Bool,
      (st.1 ≠ none → st.2 = false) →
      (parts.foldl (compactDefaultFold pname) st).1 ≠ none →
      (parts.foldl (compactDefaultFold pname) st).2 = false := by
  induction parts with
  | nil =>
    intro st h hd
    exact h hd
  | cons part rest ih =>
    intro st h hd
    rw [List.foldl_cons] at hd ⊢
    refine ih _ ?_ hd
    unfold compactDefaultFold
    cases splitOnceCharL '=' (pyStripL part) with
    | mk before aft =>
      cases aft with
      | some after =>
        by_cases heq : pyStripL before = pname
        · simp only [heq, if_pos]
          intro _
          trivial
        · simp only [heq, if_false]
          exact h
      | none => exact h

/-- Params built by `_parse_compact_params` satisfy the invariant. -/
theorem parseCompactParamsL_inv (lines : List (List Char)) (raw : List Char) :
    ∀ p ∈ parseCompactParamsL lines raw, p.default ≠ none → p.required = false := by
  intro p hp hd
  unfold parseCompactParamsL at hp
  rcases List.mem_filterMap.mp hp with ⟨line, _, hsome⟩
  by_cases hempty : (pyStripL line).isEmpty = true
  · simp only [hempty, if_pos] at hsome
    cases hsome
  · simp only [hempty, Bool.false_eq_true, if_false] at hsome
    by_cases hcolon : (pyStripL line).contains ':' = true
    · simp only [hcolon, if_pos, Option.some.injEq] at hsome
      subst hsome
      have hd' : ((splitCharL ',' raw).foldl
          (compactDefaultFold (pyStripL (splitOnceCharL ':' (pyStripL line)).1)) (none, true)).1
            ≠ none := by
        intro hnone
        apply hd
        show (((splitCharL ',' raw).foldl
          (compactDefaultFold (pyStripL (splitOnceCharL ':' (pyStripL line)).1)) (none, true)).1).map
            String.mk = none
        rw [hnone]
        rfl
      exact compactDefaultFold_inv _ _ (none, true) (fun hc => absurd rfl hc) hd'
    · simp only [hcolon, Bool.false_eq_true, if_false] at hsome
      cases hsome

/-- Params synthesized from the header argument string satisfy the
invariant. -/
theorem paramsFromSignatureL_inv (sig : List Char) :
    ∀ p ∈ paramsFromSignatureL sig, p.default ≠ none → p.required = false := by
  intro p hp hd
  unfold paramsFromSignatureL at hp
  rcases List.mem_filterMap.mp hp with ⟨part0, _, hsome⟩
  by_cases hempty : (pyStripL part0).isEmpty = true
  · simp only [hempty, if_pos] at hsome
    cases hsome
  · simp only [hempty, Bool.false_eq_true, if_false] at hsome
    cases hsp : splitOnceCharL '=' (pyStripL part0) with
    | mk before aft =>
      rw [hsp] at hsome
      cases aft with
      | some dflt =>
        simp only [Option.some.injEq] at hsome
        subst hsome
        rfl
      | none =>
        simp only [Option.some.injEq] at hsome
        subst hsome
        exact absurd rfl hd

/-- `_apply_section` either installs freshly parsed compact params or
leaves the params field untouched. -/
theorem applySectionL_params_cases (key : List Char) (lines : List (List Char))
    (raw : List Char) (st : CompactAcc) :
    (applySectionL key lines raw st).params = parseCompactParamsL lines raw
      ∨ (applySectionL key lines raw st).params = st.params := by
  unfold applySectionL
  by_cases h1 : key = "description".data
  · simp only [h1, if_pos]
    exact Or.inr (by trivial)
  · simp only [h1, if_false]
    by_cases h2 : key = "params".data
    · simp only [h2, if_pos]
      exact Or.inl (by trivial)
    · simp only [h2, if_false]
      by_cases h3 : (decide (key = "output".data) || decide (key = "returns".data)) = true
      · simp only [h3, if_pos]
        exact Or.inr (by trivial)
      · simp only [h3, Bool.false_eq_true, if_false]
        by_cases h4 : key = "sample_code".data
        · simp only [h4, if_pos]
          exact Or.inr (by trivial)
        · simp only [h4, if_false]
          exact Or.inr (by trivial)

/-- The compact section loop preserves the params invariant. -/
theorem compactSectionsGo_params_inv (raw : List Char) (lines : List (List Char)) :
    ∀ (curKey : List Char) (curLines : List (List Char)) (st : CompactAcc),
      (∀ p ∈ st.params, p.default ≠ none → p.required = false) →
      ∀ p ∈ (compactSectionsGo raw lines curKey curLines st).params,
        p.default ≠ none → p.required = false := by
  induction lines with
  | nil =>
    intro curKey curLines st hst p hp
    unfold compactSectionsGo at hp
    by_cases hk : curKey.isEmpty = true
    · simp only [hk, if_pos] at hp
      exact hst p hp
    · simp only [hk, Bool.false_eq_true, if_false] at hp
      rcases applySectionL_params_cases curKey curLines.reverse raw st with hcase | hcase
      · rw [hcase] at hp
        exact parseCompactParamsL_inv _ _ p hp
      · rw [hcase] at hp
        exact hst p hp
  | cons line rest ih =>
    intro curKey curLines st hst p hp
    unfold compactSectionsGo at hp
    by_cases hkey : isSectionKeyLine line = true
    · simp only [hkey, if_pos] at hp
      refine ih _ _ _ ?_ p hp
      by_cases hk : curKey.isEmpty = true
      · simp only [hk, if_pos]
        exact hst
      · simp only [hk, Bool.false_eq_true, if_false]
        intro q hq
        rcases applySectionL_params_cases curKey curLines.reverse raw st with hcase | hcase
        · rw [hcase] at hq
          exact parseCompactParamsL_inv _ _ q hq
        · rw [hcase] at hq
          exact hst q hq
    · simp only [hkey, Bool.false_eq_true, if_false] at hp
      exact ih _ _ _ hst p hp

/-- Every tool produced by `_parse_compact_tool` satisfies the params
invariant. -/
theorem parseCompactToolL_inv (block : List Char) (t : Tool)
    (ht : parseCompactToolL block = Except.ok t) :
    ∀ p ∈ t.params, p.default ≠ none → p.required = false := by
  unfold parseCompactToolL at ht
  cases hsplit : pySplitlinesL (pyStripL block) with
  | nil =>
    rw [hsplit] at ht
    cases ht
  | cons first rest =>
    rw [hsplit] at ht
    simp only [Except.ok.injEq] at ht
    subst ht
    intro p hp hd
    have hp' : p ∈ (if (compactSectionsGo (compactHeaderOf first).2 rest [] [] {}).params.isEmpty
          && !(compactHeaderOf first).2.isEmpty
        then paramsFromSignatureL (compactHeaderOf first).2
        else (compactSectionsGo (compactHeaderOf first).2 rest [] [] {}).params) := hp
    by_cases hcond : ((compactSectionsGo (compactHeaderOf first).2 rest [] [] {}).params.isEmpty
        && !(compactHeaderOf first).2.isEmpty) = true
    · rw [if_pos hcond] at hp'
      exact paramsFromSignatureL_inv _ p hp' hd
    · rw [if_neg hcond] at hp'
      exact compactSectionsGo_params_inv _ _ [] [] {} (fun q hq => absurd hq (List.not_mem_nil q))
        p hp' hd

/-- Members of a successful `mapExcept` run come from successful
applications on members of the input list. -/
theorem mapExcept_ok_mem {α β : Type} (f : α → Except String β) :
    ∀ (l : List α) (out : List β), mapExcept f l = Except.ok out →
      ∀ y ∈ out, ∃ x ∈ l, f x = Except.ok y := by
  intro l
  induction l with
  | nil =>
    intro out h y hy
    simp only [mapExcept, Except.ok.injEq] at h
    subst h
    cases hy
  | cons x xs ih =>
    intro out h y hy
    simp only [mapExcept] at h
    cases hfx : f x with
    | error e =>
      rw [hfx] at h
      cases h
    | ok b =>
      rw [hfx] at h
      cases hrest : mapExcept f xs with
      | error e =>
        rw [hrest] at h
        cases h
      | ok bs =>
        rw [hrest] at h
        simp only [Except.ok.injEq] at h
        subst h
        rcases List.mem_cons.mp hy with rfl | hy'
        · exact ⟨x, List.mem_cons_self _ _, hfx⟩
        · rcases ih bs hrest y hy' with ⟨x', hx', hfx'⟩
          exact ⟨x', List.mem_cons_of_mem _ hx', hfx'⟩

/-- Every tool of a manifest produced by the compact parser satisfies the
params invariant. -/
theorem parseCompactL_inv (mdCs : List Char) (m : Manifest)
    (hm : parseCompactL mdCs = Except.ok m) :
    ∀ t ∈ m.tools, ∀ p ∈ t.params, p.default ≠ none → p.required = false := by
  unfold parseCompactL at hm
  cases hmap : mapExcept parseCompactToolL (splitToolL mdCs).tail with
  | error e =>
    rw [hmap] at hm
    cases hm
  | ok tools =>
    rw [hmap] at hm
    simp only [Except.ok.injEq] at hm
    subst hm
    intro t ht p hp hd
    rcases mapExcept_ok_mem parseCompactToolL _ tools hmap t ht with ⟨block, _, hblock⟩
    exact parseCompactToolL_inv block t hblock p hp hd

/-- `parse` written out as its dispatch equation. -/
theorem parse_eq (md : String) :
    parse md = if (pyStripL md.data).isEmpty then Except.ok {}
      else match (if detectCompactL (pyStripL md.data)
                  then parseCompactL (pyStripL md.data)
                  else Except.ok (parseHeadingL (pyStripL md.data))) with
           | Except.ok m => Except.ok { m with content := String.mk (pyStripL md.data) }
           | Except.error e => Except.error e :=
  rfl

/-- The params of a heading tool come from the (last) `params` subsection
body when there is one, else are empty. -/
theorem parseHeadingToolL_params (sec : List Char) :
    (parseHeadingToolL sec).params
      = match headingParamsBody sec with
        | some b => parseParamsBlockL b
        | none => [] :=
  rfl

/-- C4 amended: every Param of a Manifest returned by `parse` has
`required = false` whenever its default is set, provided that in the
heading dialect no params line lists a `required` modifier after a
`default=` modifier (the compact dialect needs no proviso); the original
claim fails exactly on such modifier orders. -/
theorem c4_parser_invariant_outside_required_after_default :
    ∀ md : String,
      (∀ sec ∈ headingToolSections (pyStripL md.data),
          ∀ l ∈ pySplitlinesL (pyStripL ((headingParamsBody sec).getD [])),
            modsOkLine l = true) →
      ∀ m, parse md = Except.ok m →
        ∀ t ∈ m.tools, ∀ p ∈ t.params, p.default ≠ none → p.required = false := by
  intro md hgood m hm t ht p hp hd
  rw [parse_eq] at hm
  by_cases hempty : (pyStripL md.data).isEmpty = true
  · rw [if_pos hempty] at hm
    simp only [Except.ok.injEq] at hm
    subst hm
    cases ht
  · rw [if_neg hempty] at hm
    cases hdet : detectCompactL (pyStripL md.data) with
    | true =>
      rw [hdet] at hm
      simp only [if_true] at hm
      cases hres : parseCompactL (pyStripL md.data) with
      | error e =>
        rw [hres] at hm
        cases hm
      | ok m0 =>
        rw [hres] at hm
        simp only [Except.ok.injEq] at hm
        subst hm
        exact parseCompactL_inv _ m0 hres t ht p hp hd
    | false =>
      rw [hdet] at hm
      simp only [Bool.false_eq_true, if_false, Except.ok.injEq] at hm
      subst hm
      have ht' : t ∈ (headingToolSections (pyStripL md.data)).map parseHeadingToolL := ht
      rcases List.mem_map.mp ht' with ⟨sec, hsec, rfl⟩
      rw [parseHeadingToolL_params] at hp
      cases hb : headingParamsBody sec with
      | none =>
        rw [hb] at hp
        cases hp
      | some body =>
        rw [hb] at hp
        refine parseParamsBlockL_inv body ?_ p hp hd
        have hl := hgood sec hsec
        rw [hb] at hl
        exact hl

/-- Closed witness for the C4 theorem: a heading document whose only
params line puts `default=` last satisfies the proviso, and its parsed
param indeed has a default with `required = false`. -/
theorem c4_parser_invariant_witness :
    parse "## t\n### Params\n- `q` (number, default=5): d" = Except.ok c4WitnessManifest
      ∧ c4WitnessParam.required = false :=
  ⟨rfl,
   c4_parser_invariant_outside_required_after_default
     "## t\n### Params\n- `q` (number, default=5): d" (by decide)
     c4WitnessManifest rfl
     c4WitnessTool (by decide)
     c4WitnessParam
     (by decide) (by decide)⟩

end Webagent
